import Mathlib

/-!
Verification of the AI collaboration workflow engine (`forth.py`):
a shallow embedding of the rate-limited dispatcher (`_make_api_request`),
the response section parser (`_extract_thinking_steps`), the solver and
reviewer adapters (`_get_engineer_solution`, `_get_architect_review`),
the history persistence (`_save_conversation_history`) and the iteration
engine (`process_query`), together with theorems settling the spec claims.

External effects (HTTP responses, wall-clock reads, console input) are
modelled by oracle functions supplied as parameters; `time.sleep` /
`asyncio.sleep` advance an explicit logical clock by the requested amount.
-/

namespace Forth

/-! ## Constants of the system (`AICollaborationSystem.__init__`) -/

/-- `self.max_iterations = 5` -/
def max_iterations : Nat := 5

/-- `self.min_request_interval = 12` -/
def min_request_interval : Nat := 12

/-! ## Rate-limited dispatcher: `_make_api_request`

The Python function mutates `self.last_request_time`, mutates the caller's
`request_data['messages']` in place (`insert(0, system_message)`), sleeps,
performs one HTTP attempt, and recurses with `attempt + 1` on failure, up
to `max_attempts`.  We embed it as a state-passing function over an
explicit `DispatchState` (logical clock, pacing clock, the shared mutable
message list), driven by two oracles: `outcomes n` is what the network does
on attempt `n`, and `latency n` is how many seconds that attempt takes
between issuing the request and the attempt ending.  Besides the final
state and the Python return value, it returns a log with one record per
attempt performed, used to state the claims about attempt counts, backoff
waits, sent payloads and completion timestamps. -/

/-- A message in `request_data['messages']`; only the role/content pair
matters for the claims. -/
structure Message where
  role : String
  content : String
  deriving DecidableEq, Repr

/-- The fixed structured-reasoning system instruction built in
`_make_api_request` (`system_message`).  Its content is the CoT template
prose; the claims only depend on it being one fixed message. -/
def system_message : Message :=
  { role := "system",
    content := "You are a precise problem solver that uses structured thinking." }

/-- What the network does on one attempt: a 200 response with a body, a
non-200 status (the `response.status != 200` branch), or a transport-level
exception (timeout / connection error, the `except` branch). -/
inductive Outcome where
  | ok (body : String)
  | httpErr (errText : String)
  | fault (exMsg : String)
  deriving DecidableEq, Repr

/-- The mutable state `_make_api_request` touches: the logical clock
(`time.time()`), `self.last_request_time`, and the caller's
`request_data['messages']` list (mutated in place). -/
structure DispatchState where
  time : Nat
  last_request_time : Nat
  messages : List Message
  deriving DecidableEq, Repr

/-- The Python return value of `_make_api_request`: a parsed JSON body on
success, the `{"error": ...}` dict after exhausting HTTP failures, or
`None` after exhausting transport faults. -/
inductive ApiResult where
  | json (body : String)
  | errorDict (msg : String)
  | nothing
  deriving DecidableEq, Repr

/-- One performed attempt: the message list actually sent (after the
in-place `insert(0, system_message)`), the clock value at which the HTTP
response was received (`self.last_request_time = time.time()` runs there;
`none` when the attempt ended in a transport fault, where that line never
runs), and the backoff wait slept before the retry that followed (`none`
when no retry followed). -/
structure AttemptRecord where
  sent_messages : List Message
  completed_at : Option Nat
  backoff_wait : Option Nat
  deriving DecidableEq, Repr

/-- The rate-limiting sleep at the top of `_make_api_request`:
`time_since_last_request = current_time - self.last_request_time`; the
caller is suspended for `min_request_interval - time_since_last_request`
when the elapsed time is below the interval, otherwise not at all. -/
def pacing_wait (st : DispatchState) : Nat :=
  if st.time - st.last_request_time < min_request_interval then
    min_request_interval - (st.time - st.last_request_time)
  else 0

/-- Shallow embedding of `_make_api_request(request_data, attempt, max_attempts)`.

Per attempt, in source order: rate limiting (`pacing_wait`), in-place
`request_data['messages'].insert(0, system_message)`, the HTTP call
(advancing the clock by `latency attempt`); then
  * 200: update `last_request_time`, return the body;
  * non-200: update `last_request_time`; if `attempt < max_attempts`,
    sleep `2 ^ attempt` and recurse, else return the error dict;
  * exception: `last_request_time` is *not* updated (the update sits
    inside the `async with` response block); if `attempt < max_attempts`,
    sleep `min (2 ^ attempt) 10` and recurse, else return `None`. -/
def make_api_request (outcomes : Nat → Outcome) (latency : Nat → Nat)
    (st : DispatchState) (attempt : Nat) (max_attempts : Nat) :
    DispatchState × List AttemptRecord × ApiResult :=
  let t0 := st.time + pacing_wait st
  let msgs := system_message :: st.messages
  match outcomes attempt with
  | .ok body =>
      let t1 := t0 + latency attempt
      (⟨t1, t1, msgs⟩, [⟨msgs, some t1, none⟩], .json body)
  | .httpErr _ =>
      let t1 := t0 + latency attempt
      if _h : attempt < max_attempts then
        let wait := 2 ^ attempt
        let r := make_api_request outcomes latency ⟨t1 + wait, t1, msgs⟩ (attempt + 1) max_attempts
        (r.1, ⟨msgs, some t1, some wait⟩ :: r.2.1, r.2.2)
      else
        (⟨t1, t1, msgs⟩, [⟨msgs, some t1, none⟩],
          .errorDict ("API request failed after " ++ toString max_attempts ++ " attempts"))
  | .fault _ =>
      let t1 := t0 + latency attempt
      if _h : attempt < max_attempts then
        let wait := min (2 ^ attempt) 10
        let r := make_api_request outcomes latency ⟨t1 + wait, st.last_request_time, msgs⟩ (attempt + 1) max_attempts
        (r.1, ⟨msgs, none, some wait⟩ :: r.2.1, r.2.2)
      else
        (⟨t1, st.last_request_time, msgs⟩, [⟨msgs, none, none⟩], .nothing)
  termination_by max_attempts - attempt

/-- The completed-dispatch timestamps of a run: the clock values at which
an HTTP response was received (success or non-success status). -/
def completedTimes (log : List AttemptRecord) : List Nat :=
  log.filterMap AttemptRecord.completed_at

/-! ## Python string primitives

`_extract_thinking_steps` relies on Python's `str.split('\n')`,
`str.strip()`, `token in line` and `'\n'.join(...)`.  Lean's `String`
functions for these do not reduce inside the kernel, so the Python
semantics is embedded directly as structural recursions over the
character list (`String.data`) of the string. -/

/-- Python `str.isspace` characters relevant to `str.strip()`. -/
def pyIsSpace (c : Char) : Bool :=
  c == ' ' || c == '\t' || c == '\n' || c == '\r' || c == '\x0b' || c == '\x0c'

/-- Python `line.strip()`: drop leading and trailing whitespace. -/
def pyStrip (s : List Char) : List Char :=
  ((s.dropWhile pyIsSpace).reverse.dropWhile pyIsSpace).reverse

/-- Python `text.split('\n')`: split at every newline; the empty string
splits to `[""]`. -/
def pySplitNl : List Char → List (List Char)
  | [] => [[]]
  | c :: rest =>
    match pySplitNl rest with
    | [] => [[]]
    | l :: ls => if c = '\n' then [] :: l :: ls else (c :: l) :: ls

/-- Python `needle in hay` on strings: substring containment. -/
def pyContains (needle : List Char) : List Char → Bool
  | [] => needle.isPrefixOf ([] : List Char)
  | c :: t => needle.isPrefixOf (c :: t) || pyContains needle t

/-- Python `'\n'.join(lines)`. -/
def pyJoinNl : List (List Char) → List Char
  | [] => []
  | [l] => l
  | l :: ls => l ++ '\n' :: pyJoinNl ls

/-! ## Response section parser: `_extract_thinking_steps` -/

/-- `_get_cot_template()['tokens']`, in the source dict's insertion order
(the order the parser's token scan iterates in). -/
def cot_tokens : List (String × String) :=
  [("reasoning", "[THINK]"), ("verification", "[VERIFY]"),
   ("conclusion", "[CONCLUDE]"), ("reflection", "[REFLECT]")]

/-- The parser's loop variables: `sections`, `current_section`,
`current_content`.  `sections` models the Python dict as an
insertion-ordered association list. -/
structure ParseAcc where
  sections : List (String × List Char)
  current_section : Option String
  current_content : List (List Char)
  deriving DecidableEq, Repr

/-- Python dict assignment `sections[k] = v`: overwrite in place if the
key exists, else append. -/
def dict_insert (sections : List (String × List Char)) (k : String) (v : List Char) :
    List (String × List Char) :=
  if sections.any (fun p => p.1 == k) then
    sections.map (fun p => if p.1 == k then (k, v) else p)
  else sections ++ [(k, v)]

/-- `if current_section and current_content: sections[current_section] =
'\n'.join(current_content)` — flushing the open section (done both at a
section marker and after the line loop). -/
def close_section (acc : ParseAcc) : List (String × List Char) :=
  match acc.current_section with
  | some name =>
      if acc.current_content.isEmpty then acc.sections
      else dict_insert acc.sections name (pyJoinNl acc.current_content)
  | none => acc.sections

/-- The body of the parser's `for line in response_text.split('\n')` loop:
strip the line, skip it if blank, open a new section on the first token
contained in the line (closing the previous one), otherwise accumulate
the line into the current section (dropped when no section is open). -/
def process_line (acc : ParseAcc) (rawLine : List Char) : ParseAcc :=
  let line := pyStrip rawLine
  if line.isEmpty then acc
  else
    match cot_tokens.find? (fun p => pyContains p.2.data line) with
    | some p => { sections := close_section acc, current_section := some p.1,
                  current_content := [] }
    | none =>
      match acc.current_section with
      | some _ => { acc with current_content := acc.current_content ++ [line] }
      | none => acc

/-- The section extraction of `_extract_thinking_steps` applied to the
response text (`response_data['choices'][0]['message']['content']`). -/
def extract_sections (response_text : String) : List (String × List Char) :=
  close_section ((pySplitNl response_text.data).foldl process_line ⟨[], none, []⟩)

/-- The `thinking_process` dict built by `_extract_thinking_steps`:
`raw_response`, `structured_sections`, and the `meta` fields. -/
structure ThinkingProcess where
  raw_response : String
  structured_sections : List (String × String)
  has_verification : Bool
  has_reflection : Bool
  reasoning_depth : Nat
  deriving DecidableEq, Repr

/-- `_extract_thinking_steps` on a response that has the expected
`choices[0].message.content` structure. -/
def extract_thinking_steps_text (response_text : String) : ThinkingProcess :=
  let sections := extract_sections response_text
  { raw_response := response_text,
    structured_sections := sections.map (fun p => (p.1, (⟨p.2⟩ : String))),
    has_verification := sections.any (fun p => p.1 == "verification"),
    has_reflection := sections.any (fun p => p.1 == "reflection"),
    reasoning_depth :=
      (pySplitNl (((sections.find? (fun p => p.1 == "reasoning")).map Prod.snd).getD [])).length }

/-- Result of `_extract_thinking_steps` on an arbitrary dispatcher
result: a missing or malformed response (`not response_data or 'choices'
not in response_data`) yields the `{"error": "Invalid response data"}`
dict instead of a `ThinkingProcess`. -/
inductive ThinkingOutcome where
  | ok (tp : ThinkingProcess)
  | error (msg : String)
  deriving DecidableEq, Repr

/-- `_extract_thinking_steps(response_data)`; a 200 body is assumed to
carry `choices[0].message.content` (the generation service's success
shape, §6). -/
def extract_thinking_steps (response_data : ApiResult) : ThinkingOutcome :=
  match response_data with
  | .json content => .ok (extract_thinking_steps_text content)
  | .errorDict _ => .error "Invalid response data"
  | .nothing => .error "Invalid response data"

/-! ## History persistence: `_save_conversation_history` -/

/-- A conversation history entry.  In Python these are dicts; the claims
depend only on `item.get('review')` (absent key and empty string are both
falsy), so the review is modelled as a `String` with `""` for "no review
field / empty review"; `tag` keeps the entry's `type` tag. -/
structure HistoryEntry where
  tag : String
  review : String
  deriving DecidableEq, Repr

/-- `json.dump(self.conversation_history[-10:], f)`: the persisted store
is the last (up to) 10 entries of the in-memory history, order kept. -/
def save_conversation_history (conversation_history : List HistoryEntry) :
    List HistoryEntry :=
  conversation_history.drop (conversation_history.length - 10)

/-! ## Solver adapter: `_get_engineer_solution` -/

/-- The marker `_get_engineer_solution` tests for with
`'Previous solution:' in query.get('text', '')`. -/
def previous_solution_marker : String := "Previous solution:"

/-- The `previous_review` computed by `_get_engineer_solution`: only when
the query text contains the marker does it scan the history in reverse
(`for item in reversed(self.conversation_history)`) for the first entry
whose `review` is truthy, i.e. present and non-empty. -/
def get_previous_review (query_text : String) (conversation_history : List HistoryEntry) :
    Option String :=
  if pyContains previous_solution_marker.data query_text.data then
    (conversation_history.reverse.find? (fun item => item.review != "")).map
      HistoryEntry.review
  else none

/-- The engineer prompt f-string of `_get_engineer_solution`, with the
review-feedback interpolation (`'IMPORTANT - ...' + previous_review if
previous_review else ''`). -/
def engineer_prompt (query_text : String) (previous_review : Option String) : String :=
  "Acting as a Senior Software Engineer, analyze this problem using first principles.\n            \n            "
  ++ (match previous_review with
      | some r => "IMPORTANT - Address these review points from the previous iteration:" ++ r
      | none => "")
  ++ "\n            \n            Query: " ++ query_text
  ++ "\n            \n            Follow these guidelines:\n            1. If this is a revision, explicitly address EACH point from the previous review\n            2. Verify your solution against the review checklist before submitting\n            3. Include error handling and edge cases\n            4. Consider performance and browser compatibility\n            5. Provide complete, runnable code"

/-- The string `_get_engineer_solution` returns, as a function of what
`_make_api_request` returned:
  * a 200 body: `response['choices'][0]['message']['content']`;
  * the `{"error": ...}` dict (truthy!): the `['choices']` access raises
    `KeyError('choices')`, caught by the enclosing `except`, which
    returns `str(e)`, i.e. the string `'choices'` with quotes;
  * `None` (falsy): the `return "Could not generate a solution at this
    time."` fallback.
In every case the result is a non-empty string. -/
def engineer_solution_text (response : ApiResult) : String :=
  match response with
  | .json content => content
  | .errorDict _ => "'choices'"
  | .nothing => "Could not generate a solution at this time."

/-! ## Reviewer adapter: `_get_architect_review` -/

/-- The `previous_reviews` list of `_get_architect_review`: iterate the
last 3 history entries in reverse (`for item in
reversed(self.conversation_history[-3:])`) and keep the truthy
`review` fields.  The result is in reverse chronological order. -/
def get_previous_reviews (conversation_history : List HistoryEntry) : List String :=
  ((conversation_history.drop (conversation_history.length - 3)).reverse).filterMap
    (fun item => if item.review = "" then none else some item.review)

/-- The review strings rendered into the "Previous review history" block,
in rendering order: `enumerate(reversed(previous_reviews))`. -/
def rendered_reviews (conversation_history : List HistoryEntry) : List String :=
  (get_previous_reviews conversation_history).reverse

/-- The `review_context` block of `_get_architect_review`: empty when no
previous reviews were collected, otherwise a header followed by
`Review {i+1}:\n{review}` lines joined with newlines. -/
def review_context (conversation_history : List HistoryEntry) : String :=
  let previous_reviews := get_previous_reviews conversation_history
  if previous_reviews = [] then ""
  else "\n\nPrevious review history:\n" ++
    String.intercalate "\n"
      ((rendered_reviews conversation_history).mapIdx
        (fun i review => "Review " ++ toString (i + 1) ++ ":\n" ++ review))

/-! ## Iteration engine: `process_query`

The adapters' external effects are abstracted by per-iteration oracles:
`solver n` is the `ApiResult` the dispatcher produced inside
`_get_engineer_solution` during iteration `n`; `reviewer n` is the value
`_get_architect_review` returned (`none` models the `except` path that
returns `None`); `user n` is the value of `input("> ").lower()` for the
decision prompt.  The run is recorded as: the outcome, one record per
executed iteration, the sequence of assignments to
`self.workflow_state`, whether `_save_conversation_history` was called,
and whether the final "Maximum iterations reached" message was printed. -/

/-- The `self.workflow_state` values. -/
inductive WState where
  | INITIAL
  | PROCESSING
  | ENGINEER_COMPLETE
  | ARCHITECT_COMPLETE
  | REVISION_NEEDED
  deriving DecidableEq, Repr

/-- How a `process_query` run ended: the `return` after acceptance, the
`break` after rejection, or falling out of the `while` loop. -/
inductive RunOutcome where
  | accepted
  | rejected
  | exhausted
  deriving DecidableEq, Repr

/-- One executed iteration of the `while` loop.  `solver_skip` is the
`if not solution: continue` branch; `review` is `none` when the
`if not review: continue` branch ran; `user_input` is `some s` when the
accept/reject/revise prompt consumed an answer `s` this iteration. -/
structure IterationRecord where
  solution : String
  solver_skip : Bool
  reviewer_invoked : Bool
  review : Option String
  user_input : Option String
  deriving DecidableEq, Repr

/-- Everything observable about one `process_query` run. -/
structure RunResult where
  outcome : RunOutcome
  iterations : List IterationRecord
  states : List WState
  persisted : Bool
  max_iterations_message : Bool
  final_query_text : String
  deriving DecidableEq, Repr

/-- The `while iteration < self.max_iterations` loop of `process_query`,
entered with counter value `iteration`.  Mirrors the source: increment
the counter; get the engineer solution; `continue` if it is falsy; set
`ENGINEER_COMPLETE`; get the review; `continue` if it is falsy; set
`ARCHITECT_COMPLETE`; then on `y` append and persist and `return`, on
`n` `break`, and otherwise set `REVISION_NEEDED` and rewrite the query
text.  Both `break` and normal loop exit reach the final
"Maximum iterations reached" print; `return` does not. -/
def process_query_loop (solver : Nat → ApiResult) (reviewer : Nat → Option String)
    (user : Nat → String) (query_text : String) (iteration : Nat) : RunResult :=
  if _h : iteration < max_iterations then
    let it := iteration + 1
    let solution := engineer_solution_text (solver it)
    if solution = "" then
      let r := process_query_loop solver reviewer user query_text it
      { r with iterations := ⟨solution, true, false, none, none⟩ :: r.iterations }
    else
      let review := (reviewer it).getD ""
      if review = "" then
        let r := process_query_loop solver reviewer user query_text it
        { r with iterations := ⟨solution, false, true, none, none⟩ :: r.iterations,
                 states := .ENGINEER_COMPLETE :: r.states }
      else
        let response := user it
        if response = "y" then
          { outcome := .accepted,
            iterations := [⟨solution, false, true, some review, some response⟩],
            states := [.ENGINEER_COMPLETE, .ARCHITECT_COMPLETE],
            persisted := true, max_iterations_message := false,
            final_query_text := query_text }
        else if response = "n" then
          { outcome := .rejected,
            iterations := [⟨solution, false, true, some review, some response⟩],
            states := [.ENGINEER_COMPLETE, .ARCHITECT_COMPLETE],
            persisted := false, max_iterations_message := true,
            final_query_text := query_text }
        else
          let newText := "Previous solution: " ++ solution ++ "\nRevision request: "
            ++ response ++ "\nOriginal query: " ++ query_text
          let r := process_query_loop solver reviewer user newText it
          { r with
              iterations := ⟨solution, false, true, some review, some response⟩ :: r.iterations,
              states := .ENGINEER_COMPLETE :: .ARCHITECT_COMPLETE :: .REVISION_NEEDED :: r.states }
  else
    { outcome := .exhausted, iterations := [], states := [],
      persisted := false, max_iterations_message := true,
      final_query_text := query_text }
  termination_by max_iterations - iteration

/-- `process_query(query)`: set `workflow_state = 'PROCESSING'`, start the
counter at 0, run the loop. -/
def process_query (solver : Nat → ApiResult) (reviewer : Nat → Option String)
    (user : Nat → String) (query_text : String) : RunResult :=
  let r := process_query_loop solver reviewer user query_text 0
  { r with states := .PROCESSING :: r.states }

/-! ## Auxiliary definitions used only to state claims -/

/-- What the parser stores for a section whose raw content lines were
`c`: each line stripped, blank lines dropped, the rest joined with
newlines. -/
def section_content (c : List (List Char)) : String :=
  ⟨pyJoinNl ((c.map pyStrip).filter (fun l => !l.isEmpty))⟩

/-- Modelled from the spec claim wording ("up to the last 3 history
entries that carry a review field"): first keep the review-carrying
entries, then take the last 3 of those.  This is the reading the claim
asserts; the source instead filters within the last 3 entries. -/
def spec_last3_reviews (conversation_history : List HistoryEntry) : List String :=
  let carrying := conversation_history.filterMap
    (fun item => if item.review = "" then none else some item.review)
  carrying.drop (carrying.length - 3)

/-- The transition relation along which `workflow_state` actually changes
inside a `process_query` run (the amended version of the §4.5 edges):
any of `PROCESSING`, `ENGINEER_COMPLETE`, `REVISION_NEEDED` is followed
by `ENGINEER_COMPLETE` (note: after a revision the loop re-enters the
solver without re-assigning `PROCESSING`), `ENGINEER_COMPLETE` by
`ARCHITECT_COMPLETE`, and `ARCHITECT_COMPLETE` by `REVISION_NEEDED`. -/
def allowed_edge (a b : WState) : Prop :=
  (b = .ENGINEER_COMPLETE ∧
    (a = .PROCESSING ∨ a = .ENGINEER_COMPLETE ∨ a = .REVISION_NEEDED))
  ∨ (a = .ENGINEER_COMPLETE ∧ b = .ARCHITECT_COMPLETE)
  ∨ (a = .ARCHITECT_COMPLETE ∧ b = .REVISION_NEEDED)

instance (a b : WState) : Decidable (allowed_edge a b) := by
  unfold allowed_edge
  infer_instance

/-! ## Unfolding lemmas for the dispatcher, one per control path -/

theorem make_api_request_ok (outcomes : Nat → Outcome) (latency : Nat → Nat)
    (st : DispatchState) (attempt max_attempts : Nat) (body : String)
    (h : outcomes attempt = .ok body) :
    make_api_request outcomes latency st attempt max_attempts =
      (⟨st.time + pacing_wait st + latency attempt,
        st.time + pacing_wait st + latency attempt, system_message :: st.messages⟩,
       [⟨system_message :: st.messages,
         some (st.time + pacing_wait st + latency attempt), none⟩],
       .json body) := by
  rw [make_api_request.eq_def, h]

theorem make_api_request_httpErr_retry (outcomes : Nat → Outcome) (latency : Nat → Nat)
    (st : DispatchState) (attempt max_attempts : Nat) (e : String)
    (h : outcomes attempt = .httpErr e) (hlt : attempt < max_attempts) :
    make_api_request outcomes latency st attempt max_attempts =
      ((make_api_request outcomes latency
          ⟨st.time + pacing_wait st + latency attempt + 2 ^ attempt,
           st.time + pacing_wait st + latency attempt,
           system_message :: st.messages⟩ (attempt + 1) max_attempts).1,
       ⟨system_message :: st.messages,
         some (st.time + pacing_wait st + latency attempt), some (2 ^ attempt)⟩ ::
         (make_api_request outcomes latency
           ⟨st.time + pacing_wait st + latency attempt + 2 ^ attempt,
            st.time + pacing_wait st + latency attempt,
            system_message :: st.messages⟩ (attempt + 1) max_attempts).2.1,
       (make_api_request outcomes latency
         ⟨st.time + pacing_wait st + latency attempt + 2 ^ attempt,
          st.time + pacing_wait st + latency attempt,
          system_message :: st.messages⟩ (attempt + 1) max_attempts).2.2) := by
  rw [make_api_request.eq_def, h]
  simp only [dif_pos hlt]

theorem make_api_request_httpErr_exhaust (outcomes : Nat → Outcome) (latency : Nat → Nat)
    (st : DispatchState) (attempt max_attempts : Nat) (e : String)
    (h : outcomes attempt = .httpErr e) (hge : ¬ attempt < max_attempts) :
    make_api_request outcomes latency st attempt max_attempts =
      (⟨st.time + pacing_wait st + latency attempt,
        st.time + pacing_wait st + latency attempt, system_message :: st.messages⟩,
       [⟨system_message :: st.messages,
         some (st.time + pacing_wait st + latency attempt), none⟩],
       .errorDict ("API request failed after " ++ toString max_attempts ++ " attempts")) := by
  rw [make_api_request.eq_def, h]
  simp only [dif_neg hge]

theorem make_api_request_fault_retry (outcomes : Nat → Outcome) (latency : Nat → Nat)
    (st : DispatchState) (attempt max_attempts : Nat) (e : String)
    (h : outcomes attempt = .fault e) (hlt : attempt < max_attempts) :
    make_api_request outcomes latency st attempt max_attempts =
      ((make_api_request outcomes latency
          ⟨st.time + pacing_wait st + latency attempt + min (2 ^ attempt) 10,
           st.last_request_time,
           system_message :: st.messages⟩ (attempt + 1) max_attempts).1,
       ⟨system_message :: st.messages, none, some (min (2 ^ attempt) 10)⟩ ::
         (make_api_request outcomes latency
           ⟨st.time + pacing_wait st + latency attempt + min (2 ^ attempt) 10,
            st.last_request_time,
            system_message :: st.messages⟩ (attempt + 1) max_attempts).2.1,
       (make_api_request outcomes latency
         ⟨st.time + pacing_wait st + latency attempt + min (2 ^ attempt) 10,
          st.last_request_time,
          system_message :: st.messages⟩ (attempt + 1) max_attempts).2.2) := by
  rw [make_api_request.eq_def, h]
  simp only [dif_pos hlt]

theorem make_api_request_fault_exhaust (outcomes : Nat → Outcome) (latency : Nat → Nat)
    (st : DispatchState) (attempt max_attempts : Nat) (e : String)
    (h : outcomes attempt = .fault e) (hge : ¬ attempt < max_attempts) :
    make_api_request outcomes latency st attempt max_attempts =
      (⟨st.time + pacing_wait st + latency attempt,
        st.last_request_time, system_message :: st.messages⟩,
       [⟨system_message :: st.messages, none, none⟩],
       .nothing) := by
  rw [make_api_request.eq_def, h]
  simp only [dif_neg hge]



theorem chain_append_getLastD {α : Type} {R : α → α → Prop} (a : α) (l1 l2 : List α)
    (h1 : List.Chain R a l1) (h2 : List.Chain R (l1.getLastD a) l2) :
    List.Chain R a (l1 ++ l2) := by
  induction l1 generalizing a with
  | nil => simpa using h2
  | cons b t ih =>
      rw [List.getLastD_cons] at h2
      rw [List.chain_cons] at h1
      exact List.chain_cons.mpr ⟨h1.1, ih b h1.2 h2⟩

theorem getLastD_append {α : Type} (a : α) (l1 l2 : List α) :
    (l1 ++ l2).getLastD a = l2.getLastD (l1.getLastD a) := by
  induction l1 generalizing a with
  | nil => rfl
  | cons b t ih => rw [List.cons_append, List.getLastD_cons, List.getLastD_cons, ih]

theorem pacing_lower_bound (st : DispatchState) (x : Nat) (h : st.last_request_time ≤ st.time) :
    st.last_request_time + min_request_interval ≤ st.time + pacing_wait st + x := by
  unfold pacing_wait
  split <;> omega

theorem le_add3 (a b c d : Nat) : a ≤ ((a + b) + c) + d := by omega

theorem make_api_request_pacing_aux (outcomes : Nat → Outcome) (latency : Nat → Nat)
    (max_attempts : Nat) :
    ∀ (k attempt : Nat) (st : DispatchState), max_attempts - attempt ≤ k →
      st.last_request_time ≤ st.time →
      (List.Chain (fun a b => a + min_request_interval ≤ b) st.last_request_time
          (completedTimes (make_api_request outcomes latency st attempt max_attempts).2.1)
        ∧ (make_api_request outcomes latency st attempt max_attempts).1.last_request_time
            = (completedTimes (make_api_request outcomes latency st attempt max_attempts).2.1).getLastD
                st.last_request_time
        ∧ (make_api_request outcomes latency st attempt max_attempts).1.last_request_time
            ≤ (make_api_request outcomes latency st attempt max_attempts).1.time) := by
  have hterm : ∀ (attempt : Nat) (st : DispatchState), ¬ attempt < max_attempts →
      st.last_request_time ≤ st.time →
      (List.Chain (fun a b => a + min_request_interval ≤ b) st.last_request_time
          (completedTimes (make_api_request outcomes latency st attempt max_attempts).2.1)
        ∧ (make_api_request outcomes latency st attempt max_attempts).1.last_request_time
            = (completedTimes (make_api_request outcomes latency st attempt max_attempts).2.1).getLastD
                st.last_request_time
        ∧ (make_api_request outcomes latency st attempt max_attempts).1.last_request_time
            ≤ (make_api_request outcomes latency st attempt max_attempts).1.time) := by
    intro attempt st hge h
    rcases hout : outcomes attempt with body | e | e
    · rw [make_api_request_ok outcomes latency st attempt max_attempts body hout]
      simp only [completedTimes, List.filterMap_cons, List.filterMap_nil]
      exact ⟨List.Chain.cons (pacing_lower_bound st _ h) List.Chain.nil, rfl, le_refl _⟩
    · rw [make_api_request_httpErr_exhaust outcomes latency st attempt max_attempts e hout hge]
      simp only [completedTimes, List.filterMap_cons, List.filterMap_nil]
      exact ⟨List.Chain.cons (pacing_lower_bound st _ h) List.Chain.nil, rfl, le_refl _⟩
    · rw [make_api_request_fault_exhaust outcomes latency st attempt max_attempts e hout hge]
      simp only [completedTimes, List.filterMap_cons, List.filterMap_nil]
      exact ⟨List.Chain.nil, rfl, le_trans h (le_add3 _ _ _ 0)⟩
  intro k
  induction k with
  | zero =>
      intro attempt st hk h
      exact hterm attempt st (by omega) h
  | succ k ih =>
      intro attempt st hk h
      by_cases hlt : attempt < max_attempts
      · rcases hout : outcomes attempt with body | e | e
        · rw [make_api_request_ok outcomes latency st attempt max_attempts body hout]
          simp only [completedTimes, List.filterMap_cons, List.filterMap_nil]
          exact ⟨List.Chain.cons (pacing_lower_bound st _ h) List.Chain.nil, rfl, le_refl _⟩
        · rw [make_api_request_httpErr_retry outcomes latency st attempt max_attempts e hout hlt]
          have hrec := ih (attempt + 1)
            ⟨st.time + pacing_wait st + latency attempt + 2 ^ attempt,
             st.time + pacing_wait st + latency attempt, system_message :: st.messages⟩
            (by omega) (Nat.le_add_right _ _)
          simp only [completedTimes, List.filterMap_cons] at hrec ⊢
          refine ⟨List.chain_cons.mpr ⟨pacing_lower_bound st _ h, hrec.1⟩, ?_, hrec.2.2⟩
          rw [List.getLastD_cons]
          exact hrec.2.1
        · rw [make_api_request_fault_retry outcomes latency st attempt max_attempts e hout hlt]
          have hrec := ih (attempt + 1)
            ⟨st.time + pacing_wait st + latency attempt + min (2 ^ attempt) 10,
             st.last_request_time, system_message :: st.messages⟩
            (by omega) (le_trans h (le_add3 _ _ _ _))
          simp only [completedTimes, List.filterMap_cons] at hrec ⊢
          exact ⟨hrec.1, hrec.2.1, hrec.2.2⟩
      · exact hterm attempt st hlt h



theorem replicate_append_cons {α : Type} (n : Nat) (a : α) (l : List α) :
    List.replicate n a ++ (a :: l) = List.replicate (n + 1) a ++ l := by
  rw [List.replicate_succ']
  simp [List.append_assoc]

theorem make_api_request_log_aux (outcomes : Nat → Outcome) (latency : Nat → Nat)
    (max_attempts : Nat) :
    ∀ (k attempt : Nat) (st : DispatchState), max_attempts - attempt ≤ k →
      ((make_api_request outcomes latency st attempt max_attempts).2.1.length
          ≤ max_attempts - attempt + 1
        ∧ (∀ i rec, (make_api_request outcomes latency st attempt max_attempts).2.1[i]? = some rec →
            rec.sent_messages = List.replicate (i + 1) system_message ++ st.messages
            ∧ (rec.backoff_wait ≠ none → attempt + i < max_attempts)
            ∧ (∀ w, rec.backoff_wait = some w →
                (rec.completed_at.isSome → w = 2 ^ (attempt + i))
                ∧ (rec.completed_at = none → w = min (2 ^ (attempt + i)) 10)))
        ∧ (make_api_request outcomes latency st attempt max_attempts).1.messages
            = List.replicate (make_api_request outcomes latency st attempt max_attempts).2.1.length
                system_message ++ st.messages
        ∧ ((∀ n b, outcomes n ≠ .ok b) →
            (make_api_request outcomes latency st attempt max_attempts).2.2
              = .errorDict ("API request failed after " ++ toString max_attempts ++ " attempts")
            ∨ (make_api_request outcomes latency st attempt max_attempts).2.2 = .nothing)) := by
  have hterm : ∀ (attempt : Nat) (st : DispatchState), ¬ attempt < max_attempts →
      ((make_api_request outcomes latency st attempt max_attempts).2.1.length
          ≤ max_attempts - attempt + 1
        ∧ (∀ i rec, (make_api_request outcomes latency st attempt max_attempts).2.1[i]? = some rec →
            rec.sent_messages = List.replicate (i + 1) system_message ++ st.messages
            ∧ (rec.backoff_wait ≠ none → attempt + i < max_attempts)
            ∧ (∀ w, rec.backoff_wait = some w →
                (rec.completed_at.isSome → w = 2 ^ (attempt + i))
                ∧ (rec.completed_at = none → w = min (2 ^ (attempt + i)) 10)))
        ∧ (make_api_request outcomes latency st attempt max_attempts).1.messages
            = List.replicate (make_api_request outcomes latency st attempt max_attempts).2.1.length
                system_message ++ st.messages
        ∧ ((∀ n b, outcomes n ≠ .ok b) →
            (make_api_request outcomes latency st attempt max_attempts).2.2
              = .errorDict ("API request failed after " ++ toString max_attempts ++ " attempts")
            ∨ (make_api_request outcomes latency st attempt max_attempts).2.2 = .nothing)) := by
    intro attempt st hge
    rcases hout : outcomes attempt with body | e | e
    · rw [make_api_request_ok outcomes latency st attempt max_attempts body hout]
      refine ⟨by simp, ?_, by simp [List.replicate], ?_⟩
      · intro i rec h
        rcases i with _ | i
        · simp only [List.getElem?_cons_zero, Option.some_inj] at h
          subst h
          refine ⟨by simp [List.replicate], by simp, by simp⟩
        · simp at h
      · intro hno
        exact absurd hout (hno attempt body)
    · rw [make_api_request_httpErr_exhaust outcomes latency st attempt max_attempts e hout hge]
      refine ⟨by simp, ?_, by simp [List.replicate], fun _ => Or.inl rfl⟩
      intro i rec h
      rcases i with _ | i
      · simp only [List.getElem?_cons_zero, Option.some_inj] at h
        subst h
        refine ⟨by simp [List.replicate], by simp, by simp⟩
      · simp at h
    · rw [make_api_request_fault_exhaust outcomes latency st attempt max_attempts e hout hge]
      refine ⟨by simp, ?_, by simp [List.replicate], fun _ => Or.inr rfl⟩
      intro i rec h
      rcases i with _ | i
      · simp only [List.getElem?_cons_zero, Option.some_inj] at h
        subst h
        refine ⟨by simp [List.replicate], by simp, by simp⟩
      · simp at h
  intro k
  induction k with
  | zero =>
      intro attempt st hk
      exact hterm attempt st (by omega)
  | succ k ih =>
      intro attempt st hk
      by_cases hlt : attempt < max_attempts
      · rcases hout : outcomes attempt with body | e | e
        · rw [make_api_request_ok outcomes latency st attempt max_attempts body hout]
          refine ⟨by simp only [List.length_cons, List.length_nil]; omega, ?_,
            by simp [List.replicate], ?_⟩
          · intro i rec h
            rcases i with _ | i
            · simp only [List.getElem?_cons_zero, Option.some_inj] at h
              subst h
              refine ⟨by simp [List.replicate], by simp, by simp⟩
            · simp at h
          · intro hno
            exact absurd hout (hno attempt body)
        · rw [make_api_request_httpErr_retry outcomes latency st attempt max_attempts e hout hlt]
          have hrec := ih (attempt + 1)
            ⟨st.time + pacing_wait st + latency attempt + 2 ^ attempt,
             st.time + pacing_wait st + latency attempt, system_message :: st.messages⟩
            (by omega)
          refine ⟨?_, ?_, ?_, hrec.2.2.2⟩
          · have := hrec.1
            simp only [List.length_cons] at *
            omega
          · intro i rec h
            rcases i with _ | i
            · simp only [List.getElem?_cons_zero, Option.some_inj] at h
              subst h
              refine ⟨by simp [List.replicate], fun _ => by omega, ?_⟩
              intro w hw
              simp only [Option.some_inj] at hw
              subst hw
              constructor
              · intro _
                simp
              · intro hnone
                simp at hnone
            · simp only [List.getElem?_cons_succ] at h
              have hr := hrec.2.1 i rec h
              refine ⟨?_, ?_, ?_⟩
              · rw [hr.1]
                simp only []
                rw [replicate_append_cons]
              · intro hb
                have := hr.2.1 hb
                omega
              · intro w hw
                have := hr.2.2 w hw
                have harith : attempt + 1 + i = attempt + (i + 1) := by omega
                rw [harith] at this
                exact this
          · simp only [List.length_cons]
            rw [hrec.2.2.1]
            simp only []
            rw [replicate_append_cons]
        · rw [make_api_request_fault_retry outcomes latency st attempt max_attempts e hout hlt]
          have hrec := ih (attempt + 1)
            ⟨st.time + pacing_wait st + latency attempt + min (2 ^ attempt) 10,
             st.last_request_time, system_message :: st.messages⟩
            (by omega)
          refine ⟨?_, ?_, ?_, hrec.2.2.2⟩
          · have := hrec.1
            simp only [List.length_cons] at *
            omega
          · intro i rec h
            rcases i with _ | i
            · simp only [List.getElem?_cons_zero, Option.some_inj] at h
              subst h
              refine ⟨by simp [List.replicate], fun _ => by omega, ?_⟩
              intro w hw
              simp only [Option.some_inj] at hw
              subst hw
              constructor
              · intro hsome
                simp at hsome
              · intro _
                simp
            · simp only [List.getElem?_cons_succ] at h
              have hr := hrec.2.1 i rec h
              refine ⟨?_, ?_, ?_⟩
              · rw [hr.1]
                simp only []
                rw [replicate_append_cons]
              · intro hb
                have := hr.2.1 hb
                omega
              · intro w hw
                have := hr.2.2 w hw
                have harith : attempt + 1 + i = attempt + (i + 1) := by omega
                rw [harith] at this
                exact this
          · simp only [List.length_cons]
            rw [hrec.2.2.1]
            simp only []
            rw [replicate_append_cons]
      · exact hterm attempt st hlt



theorem api_fail_msg_eval :
    ("API request failed after " ++ toString (3 : Nat) ++ " attempts")
      = "API request failed after 3 attempts" := rfl

/-- C3: dispatch makes at most 3 attempts; the wait after a failed
attempt `n` is `2 ^ n` seconds (and within the 10-second cap of the
transport-fault path); after exhaustion the function returns a failure
value rather than raising. -/
theorem dispatch_retry_policy (outcomes : Nat → Outcome) (latency : Nat → Nat)
    (st : DispatchState) :
    (make_api_request outcomes latency st 1 3).2.1.length ≤ 3
    ∧ (∀ i rec, (make_api_request outcomes latency st 1 3).2.1[i]? = some rec →
        ∀ w, rec.backoff_wait = some w → w = 2 ^ (1 + i) ∧ w ≤ 10)
    ∧ ((∀ n b, outcomes n ≠ .ok b) →
        (make_api_request outcomes latency st 1 3).2.2
          = .errorDict "API request failed after 3 attempts"
        ∨ (make_api_request outcomes latency st 1 3).2.2 = .nothing) := by
  have h := make_api_request_log_aux outcomes latency 3 3 1 st (by omega)
  refine ⟨by omega, ?_, ?_⟩
  · intro i rec hrec w hw
    have hb := h.2.1 i rec hrec
    have hi : 1 + i < 3 := hb.2.1 (by simp [hw])
    have hw2 := hb.2.2 w hw
    have hpow : 2 ^ (1 + i) ≤ 10 := by
      calc 2 ^ (1 + i) ≤ 2 ^ 2 := Nat.pow_le_pow_right (by omega) (by omega)
        _ ≤ 10 := by omega
    rcases hc : rec.completed_at with _ | t
    · have := hw2.2 hc
      rw [Nat.min_eq_left hpow] at this
      exact ⟨this, this ▸ hpow⟩
    · have := hw2.1 (by simp [hc])
      exact ⟨this, this ▸ hpow⟩
  · intro hno
    have := h.2.2.2 hno
    rwa [api_fail_msg_eval] at this

theorem dispatch_retry_policy_witness :
    (make_api_request (fun _ => .httpErr "boom") (fun _ => 0) ⟨0, 0, []⟩ 1 3).2.1.length ≤ 3
    ∧ ((make_api_request (fun _ => .httpErr "boom") (fun _ => 0) ⟨0, 0, []⟩ 1 3).2.2
        = .errorDict "API request failed after 3 attempts"
      ∨ (make_api_request (fun _ => .httpErr "boom") (fun _ => 0) ⟨0, 0, []⟩ 1 3).2.2
        = .nothing) := by
  have h := dispatch_retry_policy (fun _ => .httpErr "boom") (fun _ => 0) ⟨0, 0, []⟩
  exact ⟨h.1, h.2.2 (fun n b => by simp)⟩

/-- C10: each attempt prepends the fixed system instruction to the same
caller-supplied message list, so the list sent on attempt `n` (record
index `n - 1`) begins with `n` copies of it, and the caller's
`request_data['messages']` retains one copy per performed attempt after
the call returns. -/
theorem dispatch_message_mutation (outcomes : Nat → Outcome) (latency : Nat → Nat)
    (st : DispatchState) :
    (∀ i rec, (make_api_request outcomes latency st 1 3).2.1[i]? = some rec →
        rec.sent_messages = List.replicate (i + 1) system_message ++ st.messages)
    ∧ (make_api_request outcomes latency st 1 3).1.messages
        = List.replicate (make_api_request outcomes latency st 1 3).2.1.length
            system_message ++ st.messages := by
  have h := make_api_request_log_aux outcomes latency 3 3 1 st (by omega)
  exact ⟨fun i rec hrec => (h.2.1 i rec hrec).1, h.2.2.1⟩




theorem dispatch_message_mutation_witness :
    (make_api_request (fun _ => .httpErr "x") (fun _ => 0)
        ⟨0, 0, [⟨"user", "hi"⟩]⟩ 1 3).2.1[1]?
      = some ⟨[system_message, system_message, ⟨"user", "hi"⟩], some 24, some 4⟩
    ∧ (⟨[system_message, system_message, ⟨"user", "hi"⟩], some 24, some 4⟩
        : AttemptRecord).sent_messages
      = List.replicate (1 + 1) system_message ++ [⟨"user", "hi"⟩] := by
  constructor
  · simp [make_api_request, pacing_wait, min_request_interval]
  · exact (dispatch_message_mutation (fun _ => .httpErr "x") (fun _ => 0)
      ⟨0, 0, [⟨"user", "hi"⟩]⟩).1 1 _
      (by simp [make_api_request, pacing_wait, min_request_interval])

/-- C9: back-to-back dispatches respect the 12-second minimum interval:
starting from any consistent clock state, every pair of successive
completed (response-received) attempt timestamps across two consecutive
dispatches is at least `min_request_interval` apart, and
`last_request_time` ends up equal to the most recently completed
attempt's timestamp (or its initial value when no attempt completed). -/
theorem dispatch_min_interval_gap (o1 : Nat → Outcome) (l1 : Nat → Nat)
    (o2 : Nat → Outcome) (l2 : Nat → Nat) (st0 : DispatchState)
    (h : st0.last_request_time ≤ st0.time) :
    min_request_interval = 12
    ∧ List.Chain (fun a b => a + min_request_interval ≤ b) st0.last_request_time
        (completedTimes (make_api_request o1 l1 st0 1 3).2.1
          ++ completedTimes (make_api_request o2 l2 (make_api_request o1 l1 st0 1 3).1 1 3).2.1)
    ∧ (make_api_request o2 l2 (make_api_request o1 l1 st0 1 3).1 1 3).1.last_request_time
        = (completedTimes (make_api_request o1 l1 st0 1 3).2.1
            ++ completedTimes (make_api_request o2 l2 (make_api_request o1 l1 st0 1 3).1 1 3).2.1).getLastD
            st0.last_request_time := by
  have h1 := make_api_request_pacing_aux o1 l1 3 3 1 st0 (by omega) h
  have h2 := make_api_request_pacing_aux o2 l2 3 3 1 (make_api_request o1 l1 st0 1 3).1
    (by omega) h1.2.2
  refine ⟨rfl, ?_, ?_⟩
  · refine chain_append_getLastD _ _ _ h1.1 ?_
    rw [← h1.2.1]
    exact h2.1
  · rw [getLastD_append, ← h1.2.1]
    exact h2.2.1

theorem dispatch_min_interval_gap_witness :
    (⟨0, 0, []⟩ : DispatchState).last_request_time ≤ (⟨0, 0, []⟩ : DispatchState).time
    ∧ (min_request_interval = 12
      ∧ List.Chain (fun a b => a + min_request_interval ≤ b)
          (⟨0, 0, []⟩ : DispatchState).last_request_time
          (completedTimes (make_api_request (fun _ => .ok "a") (fun _ => 1) ⟨0, 0, []⟩ 1 3).2.1
            ++ completedTimes (make_api_request (fun _ => .ok "b") (fun _ => 1)
                (make_api_request (fun _ => .ok "a") (fun _ => 1) ⟨0, 0, []⟩ 1 3).1 1 3).2.1)
      ∧ (make_api_request (fun _ => .ok "b") (fun _ => 1)
            (make_api_request (fun _ => .ok "a") (fun _ => 1) ⟨0, 0, []⟩ 1 3).1 1 3).1.last_request_time
          = (completedTimes (make_api_request (fun _ => .ok "a") (fun _ => 1) ⟨0, 0, []⟩ 1 3).2.1
              ++ completedTimes (make_api_request (fun _ => .ok "b") (fun _ => 1)
                  (make_api_request (fun _ => .ok "a") (fun _ => 1) ⟨0, 0, []⟩ 1 3).1 1 3).2.1).getLastD
              (⟨0, 0, []⟩ : DispatchState).last_request_time) :=
  ⟨Nat.le_refl 0,
   dispatch_min_interval_gap (fun _ => .ok "a") (fun _ => 1) (fun _ => .ok "b") (fun _ => 1)
     ⟨0, 0, []⟩ (Nat.le_refl 0)⟩

/-- C8: saving persists exactly the most recent (up to) 10 history
entries as a suffix of the in-memory history, in original order; with 12
entries in memory exactly the last 10 are persisted. -/
theorem save_history_last_ten (conversation_history : List HistoryEntry) :
    save_conversation_history conversation_history <:+ conversation_history
    ∧ (save_conversation_history conversation_history).length
        = min conversation_history.length 10
    ∧ (conversation_history.length = 12 →
        save_conversation_history conversation_history = conversation_history.drop 2) := by
  refine ⟨List.drop_suffix _ _, ?_, ?_⟩
  · simp only [save_conversation_history, List.length_drop]
    omega
  · intro hl
    simp only [save_conversation_history, hl]

theorem save_history_last_ten_witness :
    (List.replicate 12 (⟨"engineer_solution", ""⟩ : HistoryEntry)).length = 12
    ∧ save_conversation_history (List.replicate 12 ⟨"engineer_solution", ""⟩)
        = (List.replicate 12 (⟨"engineer_solution", ""⟩ : HistoryEntry)).drop 2 :=
  ⟨by decide,
   (save_history_last_ten (List.replicate 12 ⟨"engineer_solution", ""⟩)).2.2 (by decide)⟩



/-- C5 amended: the reviews rendered into the "previous review history"
block are exactly the review-carrying entries among the last 3 history
entries (not the last 3 review-carrying entries), listed
oldest-of-those first, and there are at most 3 of them. -/
theorem reviewer_context_last3 (conversation_history : List HistoryEntry) :
    rendered_reviews conversation_history
      = (conversation_history.drop (conversation_history.length - 3)).filterMap
          (fun item => if item.review = "" then none else some item.review)
    ∧ (rendered_reviews conversation_history).length ≤ 3 := by
  have heq : rendered_reviews conversation_history
      = (conversation_history.drop (conversation_history.length - 3)).filterMap
          (fun item => if item.review = "" then none else some item.review) := by
    simp [rendered_reviews, get_previous_reviews, List.filterMap_reverse]
  refine ⟨heq, ?_⟩
  rw [heq]
  calc ((conversation_history.drop (conversation_history.length - 3)).filterMap _).length
      ≤ (conversation_history.drop (conversation_history.length - 3)).length :=
        List.length_filterMap_le _ _
    _ ≤ 3 := by
        rw [List.length_drop]
        omega

/-- C5 counterexample: with history `[review "A", -, -, -]` the only
review-carrying entry is among "the last 3 history entries that carry a
review field", yet the rendered context block is empty, because the
source filters within the last 3 entries instead. -/
theorem reviewer_context_cex :
    review_context [⟨"completed", "A"⟩, ⟨"engineer_solution", ""⟩,
        ⟨"engineer_solution", ""⟩, ⟨"engineer_solution", ""⟩] = ""
    ∧ spec_last3_reviews [⟨"completed", "A"⟩, ⟨"engineer_solution", ""⟩,
        ⟨"engineer_solution", ""⟩, ⟨"engineer_solution", ""⟩] = ["A"] := by
  constructor
  · rfl
  · rfl

set_option maxRecDepth 20000 in
/-- C6 amended: the call is detected as a revision by the
`'Previous solution:'` substring marker in the query text (not by the
history scan); only then is the history scanned in reverse for the most
recent entry with a non-empty review, whose text is injected into the
prompt as the mandatory-feedback block; without the marker no review is
injected regardless of the history. -/
theorem engineer_revision_feedback :
    (∀ (query_text : String) (h1 h2 : List HistoryEntry) (e : HistoryEntry),
      pyContains previous_solution_marker.data query_text.data = true →
      e.review ≠ "" →
      (∀ e2 ∈ h2, e2.review = "") →
      get_previous_review query_text (h1 ++ e :: h2) = some e.review
      ∧ ∃ pre post,
          (engineer_prompt query_text (get_previous_review query_text (h1 ++ e :: h2))).data
            = pre ++ ("IMPORTANT - Address these review points from the previous iteration:"
                ++ e.review).data ++ post)
    ∧ (∀ (query_text : String) (hist : List HistoryEntry),
        pyContains previous_solution_marker.data query_text.data = false →
        get_previous_review query_text hist = none) := by
  constructor
  · intro query_text h1 h2 e hmark hrev hafter
    have hfind : ((h1 ++ e :: h2).reverse.find? (fun item => item.review != "")) = some e := by
      rw [List.reverse_append, List.reverse_cons, List.append_assoc, List.find?_append]
      have hnone : h2.reverse.find? (fun item => item.review != "") = none := by
        rw [List.find?_eq_none]
        intro x hx
        simp [hafter x (List.mem_reverse.mp hx)]
      rw [hnone]
      simp only [Option.none_or, List.cons_append, List.nil_append]
      rw [List.find?_cons_of_pos]
      simpa using hrev
    have hsel : get_previous_review query_text (h1 ++ e :: h2) = some e.review := by
      unfold get_previous_review
      rw [if_pos hmark, hfind]
      rfl
    refine ⟨hsel, ?_⟩
    rw [hsel]
    refine ⟨("Acting as a Senior Software Engineer, analyze this problem using first principles.\n            \n            ").data,
      ("\n            \n            Query: " ++ query_text
        ++ "\n            \n            Follow these guidelines:\n            1. If this is a revision, explicitly address EACH point from the previous review\n            2. Verify your solution against the review checklist before submitting\n            3. Include error handling and edge cases\n            4. Consider performance and browser compatibility\n            5. Provide complete, runnable code").data, ?_⟩
    simp [engineer_prompt, String.data_append, List.append_assoc]
  · intro query_text hist hm
    simp [get_previous_review, hm]

set_option maxRecDepth 20000 in
/-- C6 counterexample: the history holds an entry with the non-empty
review `"NEVERSEEN"`, but because the query text lacks the
`'Previous solution:'` marker the adapter selects no review and the
constructed prompt does not contain it. -/
theorem engineer_revision_feedback_cex :
    get_previous_review "hello" [⟨"completed", "NEVERSEEN"⟩] = none
    ∧ (⟨"completed", "NEVERSEEN"⟩ : HistoryEntry).review ≠ ""
    ∧ pyContains "NEVERSEEN".data
        (engineer_prompt "hello" (get_previous_review "hello" [⟨"completed", "NEVERSEEN"⟩])).data
      = false := by
  refine ⟨rfl, by decide, by decide⟩

set_option maxRecDepth 20000 in
theorem engineer_revision_feedback_witness :
    get_previous_review "Previous solution: x" [⟨"completed", "Fix X"⟩] = some "Fix X"
    ∧ ∃ pre post,
        (engineer_prompt "Previous solution: x"
            (get_previous_review "Previous solution: x" [⟨"completed", "Fix X"⟩])).data
          = pre ++ ("IMPORTANT - Address these review points from the previous iteration:"
              ++ "Fix X").data ++ post := by
  have h := engineer_revision_feedback.1 "Previous solution: x" [] []
    ⟨"completed", "Fix X"⟩ (by decide) (by decide) (by simp)
  exact h



theorem process_line_think (acc : ParseAcc) :
    process_line acc "[THINK]".data = ⟨close_section acc, some "reasoning", []⟩ := rfl

theorem process_line_verify (acc : ParseAcc) :
    process_line acc "[VERIFY]".data = ⟨close_section acc, some "verification", []⟩ := rfl

theorem process_line_reflect (acc : ParseAcc) :
    process_line acc "[REFLECT]".data = ⟨close_section acc, some "reflection", []⟩ := rfl

theorem process_line_conclude (acc : ParseAcc) :
    process_line acc "[CONCLUDE]".data = ⟨close_section acc, some "conclusion", []⟩ := rfl



theorem fold_content_lines (c : List (List Char)) :
    ∀ (secs : List (String × List Char)) (name : String) (cont : List (List Char)),
      (∀ l ∈ c, ∀ p ∈ cot_tokens, pyContains p.2.data (pyStrip l) = false) →
      c.foldl process_line ⟨secs, some name, cont⟩
        = ⟨secs, some name, cont ++ (c.map pyStrip).filter (fun l => !l.isEmpty)⟩ := by
  induction c with
  | nil => intro secs name cont _; simp
  | cons l c ih =>
      intro secs name cont hno
      rw [List.foldl_cons]
      by_cases hb : (pyStrip l).isEmpty
      · have hpl : process_line ⟨secs, some name, cont⟩ l = ⟨secs, some name, cont⟩ := by
          unfold process_line
          simp [hb]
        rw [hpl, ih secs name cont (fun l2 hl => hno l2 (List.mem_cons_of_mem _ hl))]
        simp [List.filter_cons, hb]
      · have hfind : cot_tokens.find? (fun p => pyContains p.2.data (pyStrip l)) = none := by
          rw [List.find?_eq_none]
          intro p hp
          simp [hno l (List.mem_cons_self _ _) p hp]
        have hpl : process_line ⟨secs, some name, cont⟩ l
            = ⟨secs, some name, cont ++ [pyStrip l]⟩ := by
          unfold process_line
          simp [hb, hfind]
        rw [hpl, ih _ _ _ (fun l2 hl => hno l2 (List.mem_cons_of_mem _ hl))]
        simp [List.filter_cons, hb, List.append_assoc]

theorem fold_no_tokens (lines : List (List Char)) :
    (∀ l ∈ lines, ∀ p ∈ cot_tokens, pyContains p.2.data (pyStrip l) = false) →
    lines.foldl process_line ⟨[], none, []⟩ = ⟨[], none, []⟩ := by
  induction lines with
  | nil => intro _; rfl
  | cons l ls ih =>
      intro h
      rw [List.foldl_cons]
      have hfind : cot_tokens.find? (fun p => pyContains p.2.data (pyStrip l)) = none := by
        rw [List.find?_eq_none]
        intro p hp
        simp [h l (List.mem_cons_self _ _) p hp]
      have hpl : process_line ⟨[], none, []⟩ l = ⟨[], none, []⟩ := by
        unfold process_line
        by_cases hb : (pyStrip l).isEmpty <;> simp [hb, hfind]
      rw [hpl]
      exact ih (fun l2 hl => h l2 (List.mem_cons_of_mem _ hl))

theorem filter_nonblank_nonempty (c : List (List Char))
    (h : ∃ l ∈ c, (pyStrip l).isEmpty = false) :
    ((c.map pyStrip).filter (fun l => !l.isEmpty)).isEmpty = false := by
  rcases h with ⟨l, hl, hne⟩
  have hmem : pyStrip l ∈ (c.map pyStrip).filter (fun l => !l.isEmpty) :=
    List.mem_filter.mpr ⟨List.mem_map_of_mem _ hl, by simp [hne]⟩
  by_contra hc
  rw [Bool.not_eq_false, List.isEmpty_iff] at hc
  rw [hc] at hmem
  exact absurd hmem (List.not_mem_nil _)

theorem close_section_step (secs : List (String × List Char)) (name : String)
    (cont : List (List Char))
    (hname : secs.any (fun p => p.1 == name) = false)
    (hcont : cont.isEmpty = false) :
    close_section ⟨secs, some name, cont⟩ = secs ++ [(name, pyJoinNl cont)] := by
  unfold close_section dict_insert
  simp [hcont, hname]




/-- C4: parser round trip.  (1) On a response whose lines are exactly the
four delimiter tokens in template order, each followed by a block of
token-free lines at least one of which is non-blank, the parser recovers
exactly four sections named after the tokens' roles, holding those lines
stripped with blank lines dropped, and the delimiter lines are not
stored.  (2) On a response with no delimiter token anywhere, the sections
mapping is empty and `raw_response` is the input text. -/
theorem parser_round_trip :
    (∀ (response_text : String) (c1 c2 c3 c4 : List (List Char)),
      pySplitNl response_text.data
        = "[THINK]".data :: (c1 ++ "[VERIFY]".data :: (c2 ++ "[REFLECT]".data
            :: (c3 ++ "[CONCLUDE]".data :: c4))) →
      (∀ l ∈ c1 ++ c2 ++ c3 ++ c4, ∀ p ∈ cot_tokens,
          pyContains p.2.data (pyStrip l) = false) →
      (∃ l ∈ c1, (pyStrip l).isEmpty = false) →
      (∃ l ∈ c2, (pyStrip l).isEmpty = false) →
      (∃ l ∈ c3, (pyStrip l).isEmpty = false) →
      (∃ l ∈ c4, (pyStrip l).isEmpty = false) →
      (extract_thinking_steps_text response_text).structured_sections
        = [("reasoning", section_content c1), ("verification", section_content c2),
           ("reflection", section_content c3), ("conclusion", section_content c4)]
      ∧ (extract_thinking_steps_text response_text).raw_response = response_text)
    ∧ (∀ response_text : String,
      (∀ l ∈ pySplitNl response_text.data, ∀ p ∈ cot_tokens,
          pyContains p.2.data (pyStrip l) = false) →
      (extract_thinking_steps_text response_text).structured_sections = []
      ∧ (extract_thinking_steps_text response_text).raw_response = response_text) := by
  constructor
  · intro t c1 c2 c3 c4 hsplit hno hne1 hne2 hne3 hne4
    have hno1 : ∀ l ∈ c1, ∀ p ∈ cot_tokens, pyContains p.2.data (pyStrip l) = false :=
      fun l hl => hno l (by simp [hl])
    have hno2 : ∀ l ∈ c2, ∀ p ∈ cot_tokens, pyContains p.2.data (pyStrip l) = false :=
      fun l hl => hno l (by simp [hl])
    have hno3 : ∀ l ∈ c3, ∀ p ∈ cot_tokens, pyContains p.2.data (pyStrip l) = false :=
      fun l hl => hno l (by simp [hl])
    have hno4 : ∀ l ∈ c4, ∀ p ∈ cot_tokens, pyContains p.2.data (pyStrip l) = false :=
      fun l hl => hno l (by simp [hl])
    have hmain : extract_sections t
        = [("reasoning", pyJoinNl ((c1.map pyStrip).filter (fun l => !l.isEmpty))),
           ("verification", pyJoinNl ((c2.map pyStrip).filter (fun l => !l.isEmpty))),
           ("reflection", pyJoinNl ((c3.map pyStrip).filter (fun l => !l.isEmpty))),
           ("conclusion", pyJoinNl ((c4.map pyStrip).filter (fun l => !l.isEmpty)))] := by
      unfold extract_sections
      rw [hsplit, List.foldl_cons, process_line_think,
        show close_section ⟨[], none, []⟩ = ([] : List (String × List Char)) from rfl,
        List.foldl_append, fold_content_lines c1 [] "reasoning" [] hno1, List.nil_append,
        List.foldl_cons, process_line_verify,
        close_section_step [] "reasoning" _ (by simp) (filter_nonblank_nonempty c1 hne1),
        List.nil_append,
        List.foldl_append, fold_content_lines c2 _ "verification" [] hno2, List.nil_append,
        List.foldl_cons, process_line_reflect,
        close_section_step _ "verification" _ (by simp) (filter_nonblank_nonempty c2 hne2),
        List.foldl_append, fold_content_lines c3 _ "reflection" [] hno3, List.nil_append,
        List.foldl_cons, process_line_conclude,
        close_section_step _ "reflection" _ (by simp) (filter_nonblank_nonempty c3 hne3),
        fold_content_lines c4 _ "conclusion" [] hno4, List.nil_append,
        close_section_step _ "conclusion" _ (by simp) (filter_nonblank_nonempty c4 hne4)]
      rfl
    constructor
    · show (extract_sections t).map _ = _
      rw [hmain]
      rfl
    · rfl
  · intro t h
    constructor
    · show (extract_sections t).map _ = _
      unfold extract_sections
      rw [fold_no_tokens _ h]
      rfl
    · rfl



theorem process_query_loop_exhaust (solver : Nat → ApiResult) (reviewer : Nat → Option String)
    (user : Nat → String) (qt : String) (iteration : Nat)
    (h : ¬ iteration < max_iterations) :
    process_query_loop solver reviewer user qt iteration
      = ⟨.exhausted, [], [], false, true, qt⟩ := by
  rw [process_query_loop.eq_def]
  simp only [dif_neg h]

theorem process_query_loop_skip (solver : Nat → ApiResult) (reviewer : Nat → Option String)
    (user : Nat → String) (qt : String) (iteration : Nat)
    (h : iteration < max_iterations)
    (hsol : engineer_solution_text (solver (iteration + 1)) = "") :
    process_query_loop solver reviewer user qt iteration
      = { process_query_loop solver reviewer user qt (iteration + 1) with
          iterations := ⟨engineer_solution_text (solver (iteration + 1)), true, false, none, none⟩
            :: (process_query_loop solver reviewer user qt (iteration + 1)).iterations } := by
  rw [process_query_loop.eq_def]
  simp only [dif_pos h, if_pos hsol]

theorem process_query_loop_review_skip (solver : Nat → ApiResult) (reviewer : Nat → Option String)
    (user : Nat → String) (qt : String) (iteration : Nat)
    (h : iteration < max_iterations)
    (hsol : ¬ engineer_solution_text (solver (iteration + 1)) = "")
    (hrev : ((reviewer (iteration + 1)).getD "") = "") :
    process_query_loop solver reviewer user qt iteration
      = { process_query_loop solver reviewer user qt (iteration + 1) with
          iterations := ⟨engineer_solution_text (solver (iteration + 1)), false, true, none, none⟩
            :: (process_query_loop solver reviewer user qt (iteration + 1)).iterations,
          states := .ENGINEER_COMPLETE
            :: (process_query_loop solver reviewer user qt (iteration + 1)).states } := by
  rw [process_query_loop.eq_def]
  simp only [dif_pos h, if_neg hsol, if_pos hrev]

theorem process_query_loop_accept (solver : Nat → ApiResult) (reviewer : Nat → Option String)
    (user : Nat → String) (qt : String) (iteration : Nat)
    (h : iteration < max_iterations)
    (hsol : ¬ engineer_solution_text (solver (iteration + 1)) = "")
    (hrev : ¬ ((reviewer (iteration + 1)).getD "") = "")
    (hy : user (iteration + 1) = "y") :
    process_query_loop solver reviewer user qt iteration
      = ⟨.accepted,
         [⟨engineer_solution_text (solver (iteration + 1)), false, true,
           some ((reviewer (iteration + 1)).getD ""), some (user (iteration + 1))⟩],
         [.ENGINEER_COMPLETE, .ARCHITECT_COMPLETE], true, false, qt⟩ := by
  rw [process_query_loop.eq_def]
  simp only [dif_pos h, if_neg hsol, if_neg hrev, hy]
  simp

theorem process_query_loop_reject (solver : Nat → ApiResult) (reviewer : Nat → Option String)
    (user : Nat → String) (qt : String) (iteration : Nat)
    (h : iteration < max_iterations)
    (hsol : ¬ engineer_solution_text (solver (iteration + 1)) = "")
    (hrev : ¬ ((reviewer (iteration + 1)).getD "") = "")
    (hn : user (iteration + 1) = "n") :
    process_query_loop solver reviewer user qt iteration
      = ⟨.rejected,
         [⟨engineer_solution_text (solver (iteration + 1)), false, true,
           some ((reviewer (iteration + 1)).getD ""), some (user (iteration + 1))⟩],
         [.ENGINEER_COMPLETE, .ARCHITECT_COMPLETE], false, true, qt⟩ := by
  rw [process_query_loop.eq_def]
  simp only [dif_pos h, if_neg hsol, if_neg hrev, hn]
  simp

theorem process_query_loop_revise (solver : Nat → ApiResult) (reviewer : Nat → Option String)
    (user : Nat → String) (qt : String) (iteration : Nat)
    (h : iteration < max_iterations)
    (hsol : ¬ engineer_solution_text (solver (iteration + 1)) = "")
    (hrev : ¬ ((reviewer (iteration + 1)).getD "") = "")
    (hy : ¬ user (iteration + 1) = "y")
    (hn : ¬ user (iteration + 1) = "n") :
    process_query_loop solver reviewer user qt iteration
      = { process_query_loop solver reviewer user
            ("Previous solution: " ++ engineer_solution_text (solver (iteration + 1))
              ++ "\nRevision request: " ++ user (iteration + 1)
              ++ "\nOriginal query: " ++ qt) (iteration + 1) with
          iterations := ⟨engineer_solution_text (solver (iteration + 1)), false, true,
              some ((reviewer (iteration + 1)).getD ""), some (user (iteration + 1))⟩
            :: (process_query_loop solver reviewer user
                ("Previous solution: " ++ engineer_solution_text (solver (iteration + 1))
                  ++ "\nRevision request: " ++ user (iteration + 1)
                  ++ "\nOriginal query: " ++ qt) (iteration + 1)).iterations,
          states := .ENGINEER_COMPLETE :: .ARCHITECT_COMPLETE :: .REVISION_NEEDED
            :: (process_query_loop solver reviewer user
                ("Previous solution: " ++ engineer_solution_text (solver (iteration + 1))
                  ++ "\nRevision request: " ++ user (iteration + 1)
                  ++ "\nOriginal query: " ++ qt) (iteration + 1)).states } := by
  rw [process_query_loop.eq_def]
  simp only [dif_pos h, if_neg hsol, if_neg hrev, if_neg hy, if_neg hn]



theorem process_query_loop_props (solver : Nat → ApiResult) (reviewer : Nat → Option String)
    (user : Nat → String) :
    ∀ (k iteration : Nat) (qt : String), max_iterations - iteration ≤ k →
      ((process_query_loop solver reviewer user qt iteration).iterations.length
          ≤ max_iterations - iteration
        ∧ ((∀ rec ∈ (process_query_loop solver reviewer user qt iteration).iterations,
              ∀ s, rec.user_input = some s → s ≠ "y" ∧ s ≠ "n") →
            (process_query_loop solver reviewer user qt iteration).outcome = .exhausted
            ∧ (process_query_loop solver reviewer user qt iteration).max_iterations_message = true
            ∧ (process_query_loop solver reviewer user qt iteration).persisted = false
            ∧ (process_query_loop solver reviewer user qt iteration).iterations.length
                = max_iterations - iteration)
        ∧ (∀ prev : WState,
            (prev = .PROCESSING ∨ prev = .ENGINEER_COMPLETE ∨ prev = .REVISION_NEEDED) →
            List.Chain allowed_edge prev
              (process_query_loop solver reviewer user qt iteration).states)) := by
  intro k
  induction k with
  | zero =>
      intro iteration qt hk
      have hge : ¬ iteration < max_iterations := by omega
      rw [process_query_loop_exhaust _ _ _ _ _ hge]
      exact ⟨Nat.zero_le _, fun _ => ⟨rfl, rfl, rfl, by simp; omega⟩,
        fun prev _ => List.Chain.nil⟩
  | succ k ih =>
      intro iteration qt hk
      by_cases hlt : iteration < max_iterations
      · by_cases hsol : engineer_solution_text (solver (iteration + 1)) = ""
        · rw [process_query_loop_skip _ _ _ _ _ hlt hsol]
          have hrec := ih (iteration + 1) qt (by omega)
          refine ⟨?_, ?_, ?_⟩
          · simp only [List.length_cons]
            have := hrec.1
            omega
          · intro hyp
            have hb := hrec.2.1 (fun rec hr s hs => hyp rec (List.mem_cons_of_mem _ hr) s hs)
            refine ⟨hb.1, hb.2.1, hb.2.2.1, ?_⟩
            simp only [List.length_cons]
            have := hb.2.2.2
            omega
          · intro prev hprev
            exact hrec.2.2 prev hprev
        · by_cases hrev : ((reviewer (iteration + 1)).getD "") = ""
          · rw [process_query_loop_review_skip _ _ _ _ _ hlt hsol hrev]
            have hrec := ih (iteration + 1) qt (by omega)
            refine ⟨?_, ?_, ?_⟩
            · simp only [List.length_cons]
              have := hrec.1
              omega
            · intro hyp
              have hb := hrec.2.1 (fun rec hr s hs => hyp rec (List.mem_cons_of_mem _ hr) s hs)
              refine ⟨hb.1, hb.2.1, hb.2.2.1, ?_⟩
              simp only [List.length_cons]
              have := hb.2.2.2
              omega
            · intro prev hprev
              exact List.chain_cons.mpr ⟨Or.inl ⟨rfl, hprev⟩,
                hrec.2.2 .ENGINEER_COMPLETE (Or.inr (Or.inl rfl))⟩
          · by_cases hy : user (iteration + 1) = "y"
            · rw [process_query_loop_accept _ _ _ _ _ hlt hsol hrev hy]
              refine ⟨by simp only [List.length_cons, List.length_nil]; omega, ?_, ?_⟩
              · intro hyp
                have := (hyp _ (List.mem_cons_self _ _) (user (iteration + 1)) rfl).1
                rw [hy] at this
                exact absurd rfl this
              · intro prev hprev
                exact List.chain_cons.mpr ⟨Or.inl ⟨rfl, hprev⟩,
                  List.chain_cons.mpr ⟨Or.inr (Or.inl ⟨rfl, rfl⟩), List.Chain.nil⟩⟩
            · by_cases hn : user (iteration + 1) = "n"
              · rw [process_query_loop_reject _ _ _ _ _ hlt hsol hrev hn]
                refine ⟨by simp only [List.length_cons, List.length_nil]; omega, ?_, ?_⟩
                · intro hyp
                  have := (hyp _ (List.mem_cons_self _ _) (user (iteration + 1)) rfl).2
                  rw [hn] at this
                  exact absurd rfl this
                · intro prev hprev
                  exact List.chain_cons.mpr ⟨Or.inl ⟨rfl, hprev⟩,
                    List.chain_cons.mpr ⟨Or.inr (Or.inl ⟨rfl, rfl⟩), List.Chain.nil⟩⟩
              · rw [process_query_loop_revise _ _ _ _ _ hlt hsol hrev hy hn]
                have hrec := ih (iteration + 1)
                  ("Previous solution: " ++ engineer_solution_text (solver (iteration + 1))
                    ++ "\nRevision request: " ++ user (iteration + 1)
                    ++ "\nOriginal query: " ++ qt) (by omega)
                refine ⟨?_, ?_, ?_⟩
                · simp only [List.length_cons]
                  have := hrec.1
                  omega
                · intro hyp
                  have hb := hrec.2.1 (fun rec hr s hs => hyp rec (List.mem_cons_of_mem _ hr) s hs)
                  refine ⟨hb.1, hb.2.1, hb.2.2.1, ?_⟩
                  simp only [List.length_cons]
                  have := hb.2.2.2
                  omega
                · intro prev hprev
                  refine List.chain_cons.mpr ⟨Or.inl ⟨rfl, hprev⟩, ?_⟩
                  refine List.chain_cons.mpr ⟨Or.inr (Or.inl ⟨rfl, rfl⟩), ?_⟩
                  refine List.chain_cons.mpr ⟨Or.inr (Or.inr ⟨rfl, rfl⟩), ?_⟩
                  exact hrec.2.2 .REVISION_NEEDED (Or.inr (Or.inr rfl))
      · rw [process_query_loop_exhaust _ _ _ _ _ hlt]
        exact ⟨Nat.zero_le _, fun _ => ⟨rfl, rfl, rfl, by simp; omega⟩,
          fun prev _ => List.Chain.nil⟩



/-- C7: a single query is processed in at most 5 iterations, and when all
consumed user decisions are neither accept (`y`) nor reject (`n`) the run
performs exactly 5 iterations, ends with the exhaustion outcome, prints
the "Maximum iterations reached" notice, and does not persist history. -/
theorem iteration_cap (solver : Nat → ApiResult) (reviewer : Nat → Option String)
    (user : Nat → String) (qt : String) :
    (process_query solver reviewer user qt).iterations.length ≤ 5
    ∧ ((∀ rec ∈ (process_query solver reviewer user qt).iterations,
          ∀ s, rec.user_input = some s → s ≠ "y" ∧ s ≠ "n") →
        (process_query solver reviewer user qt).outcome = .exhausted
        ∧ (process_query solver reviewer user qt).max_iterations_message = true
        ∧ (process_query solver reviewer user qt).persisted = false
        ∧ (process_query solver reviewer user qt).iterations.length = 5) := by
  have h := process_query_loop_props solver reviewer user 5 0 qt (by decide)
  exact ⟨h.1, h.2.1⟩

theorem iteration_cap_witness :
    (process_query (fun _ => .json "S") (fun _ => some "R") (fun _ => "revise") "q").outcome
      = .exhausted
    ∧ (process_query (fun _ => .json "S") (fun _ => some "R") (fun _ => "revise") "q").persisted
      = false
    ∧ (process_query (fun _ => .json "S") (fun _ => some "R")
        (fun _ => "revise") "q").iterations.length = 5 := by
  have hiter : (process_query (fun _ => .json "S") (fun _ => some "R")
      (fun _ => "revise") "q").iterations
      = List.replicate 5 ⟨"S", false, true, some "R", some "revise"⟩ := by
    simp [process_query, process_query_loop, engineer_solution_text, max_iterations,
      List.replicate]
  have h := (iteration_cap (fun _ => .json "S") (fun _ => some "R") (fun _ => "revise") "q").2
    (by
      intro rec hrec s hs
      rw [hiter] at hrec
      simp [List.mem_replicate] at hrec
      rw [hrec] at hs
      simp at hs
      rw [← hs]
      decide)
  exact ⟨h.1, h.2.2.1, h.2.2.2⟩

/-- C2 amended: within a `process_query` run, the recorded workflow-state
assignments start with `PROCESSING` and every adjacent pair follows
`allowed_edge`; in particular, after `REVISION_NEEDED` the next change is
directly to `ENGINEER_COMPLETE` (the loop does not re-assign
`PROCESSING`). -/
theorem workflow_state_edges (solver : Nat → ApiResult) (reviewer : Nat → Option String)
    (user : Nat → String) (qt : String) :
    (process_query solver reviewer user qt).states.head? = some .PROCESSING
    ∧ List.Chain' allowed_edge (process_query solver reviewer user qt).states := by
  have h := (process_query_loop_props solver reviewer user 5 0 qt (by decide)).2.2
    .PROCESSING (Or.inl rfl)
  exact ⟨rfl, h⟩

/-- C2 counterexample: a run in which the solver and reviewer succeed,
the user first revises and then accepts.  The recorded state sequence
contains the adjacent pair `REVISION_NEEDED`, `ENGINEER_COMPLETE`
(indices 3 and 4) — the transition the claim says never occurs; the
claimed `REVISION_NEEDED → PROCESSING` re-entry never happens. -/
theorem workflow_state_edges_cex :
    (process_query (fun _ => .json "S") (fun _ => some "R")
        (fun n => if n = 1 then "revise" else "y") "q").states
      = [.PROCESSING, .ENGINEER_COMPLETE, .ARCHITECT_COMPLETE, .REVISION_NEEDED,
         .ENGINEER_COMPLETE, .ARCHITECT_COMPLETE]
    ∧ (process_query (fun _ => .json "S") (fun _ => some "R")
        (fun n => if n = 1 then "revise" else "y") "q").states[3]?
      = some .REVISION_NEEDED
    ∧ (process_query (fun _ => .json "S") (fun _ => some "R")
        (fun n => if n = 1 then "revise" else "y") "q").states[4]?
      = some .ENGINEER_COMPLETE := by
  have hs : (process_query (fun _ => .json "S") (fun _ => some "R")
      (fun n => if n = 1 then "revise" else "y") "q").states
      = [.PROCESSING, .ENGINEER_COMPLETE, .ARCHITECT_COMPLETE, .REVISION_NEEDED,
         .ENGINEER_COMPLETE, .ARCHITECT_COMPLETE] := by
    simp [process_query, process_query_loop, engineer_solution_text, max_iterations]
  exact ⟨hs, by rw [hs]; rfl, by rw [hs]; rfl⟩

/-- C1 (evaluating the code at the failing input): when the dispatcher
exhausts all attempts and `_get_engineer_solution` returns the sentinel
failure message, the sentinel is a non-empty (truthy) string, so the
engine's `if not solution: continue` guard does NOT fire: the iteration
invokes the reviewer on the sentinel text, consumes a user decision, and
here even persists the sentinel as an accepted solution. -/
theorem solver_failure_not_skipped :
    engineer_solution_text ApiResult.nothing = "Could not generate a solution at this time."
    ∧ engineer_solution_text ApiResult.nothing ≠ ""
    ∧ (process_query (fun _ => .nothing) (fun _ => some "R") (fun _ => "y") "q").iterations
      = [⟨"Could not generate a solution at this time.", false, true, some "R", some "y"⟩]
    ∧ (process_query (fun _ => .nothing) (fun _ => some "R") (fun _ => "y") "q").outcome
      = .accepted
    ∧ (process_query (fun _ => .nothing) (fun _ => some "R") (fun _ => "y") "q").persisted
      = true := by
  refine ⟨rfl, by decide, ?_, ?_, ?_⟩ <;>
    simp [process_query, process_query_loop, engineer_solution_text, max_iterations]



theorem parser_round_trip_witness :
    (extract_thinking_steps_text
        "[THINK]\nstep one\n\n[VERIFY]\nok\n[REFLECT]\nalt\n[CONCLUDE]\ndone").structured_sections
      = [("reasoning", "step one"), ("verification", "ok"),
         ("reflection", "alt"), ("conclusion", "done")]
    ∧ (extract_thinking_steps_text "no tokens here\nat all").structured_sections = []
    ∧ (extract_thinking_steps_text "no tokens here\nat all").raw_response
      = "no tokens here\nat all" := by
  refine ⟨?_, ?_, ?_⟩
  · rw [(parser_round_trip.1 "[THINK]\nstep one\n\n[VERIFY]\nok\n[REFLECT]\nalt\n[CONCLUDE]\ndone"
      ["step one".data, []] ["ok".data] ["alt".data] ["done".data]
      (by decide) (by decide) (by decide) (by decide) (by decide) (by decide)).1]
    rfl
  · exact (parser_round_trip.2 "no tokens here\nat all" (by decide)).1
  · exact (parser_round_trip.2 "no tokens here\nat all" (by decide)).2

end Forth
